import Mathlib

/-!
Verification of the ranking engine of the `kdap_pubcrawl` repository
(`src/model_data.py`, `src/helpers.py`), shallowly embedded in Lean 4.

Python floats are modelled as exact rationals (`ℚ`); the quantities involved
(weights 5.0 / 0.5 / 3.0, normalized distances) are small and the claims are
about exact equalities and orderings, so the rational model is adequate.
Pandas tables are modelled as lists of rows; a missing value (Python `None`
or NaN) is `Cell.none` / `Option.none`.
-/

/-- A pandas cell as seen by the engine: missing (`None`/NaN), numeric, or
a raw string. -/
inductive Cell where
  | none : Cell
  | num : ℚ → Cell
  | str : String → Cell
deriving DecidableEq

/-- Whitespace as stripped by Python `str.strip` and matched by the regex
class backslash-s on ASCII text: space, tab, newline, vertical tab, form
feed, carriage return. -/
def isWS (c : Char) : Bool :=
  c == ' ' || c == '\t' || c == '\n' || c == '\x0b' || c == '\x0c' || c == '\r'

/-- Python `str.strip()` on the character list of a string. -/
def pyStrip (cs : List Char) : List Char :=
  ((cs.dropWhile isWS).reverse.dropWhile isWS).reverse

/-- ASCII lower-casing of one character, as Python `str.lower` acts on the
ASCII range (the only range the engine compares against, namely "nan"). -/
def lowerChar (c : Char) : Char :=
  if 'A' ≤ c && c ≤ 'Z' then Char.ofNat (c.toNat + 32) else c

/-- Embeds `model_data.has_feature`: `None` and NaN give `False`
(`str(nan) == "nan"`), a number always stringifies non-empty and not "nan",
and a string counts when its stripped text is non-empty and not "nan"
case-insensitively. -/
def has_feature (c : Cell) : Bool :=
  match c with
  | Cell.none => false
  | Cell.num _ => true
  | Cell.str s =>
      let t := pyStrip s.data
      decide (t ≠ []) && decide (t.map lowerChar ≠ ['n', 'a', 'n'])

/-- Feature-weight record, embedding the Python weight dict
(`distance`, `food`, `sportsbar`, `surprise`). -/
structure Weights where
  distance : ℚ
  food : ℚ
  sportsbar : ℚ
  surprise : ℚ
deriving DecidableEq

/-- Embeds `model_data.DEFAULT_WEIGHTS`. -/
def DEFAULT_WEIGHTS : Weights :=
  { distance := 5, food := 1/2, sportsbar := 1/2, surprise := 1/2 }

/-- Embeds `model_data.FEATURES`. -/
def FEATURES : List String := ["food", "sportsbar", "surprise"]

/-- Embeds Python `toggles.get(f, False)` on a dict modelled as an
association list. -/
def getToggle (tg : List (String × Bool)) (k : String) : Bool :=
  match tg.find? (fun p => p.1 == k) with
  | some p => p.2
  | Option.none => false

/-- Embeds `model_data.derive_weights`: if no toggle among `FEATURES` is
enabled the base weights are returned unchanged; otherwise every feature
weight is overridden to 3.0 (enabled) or 0.0 (not enabled) and the distance
weight is kept at the base value. -/
def derive_weights (toggles : List (String × Bool)) (base : Weights) : Weights :=
  let enabled := FEATURES.filter (fun f => getToggle toggles f)
  if enabled.length = 0 then
    base
  else
    { distance := base.distance
      food := if getToggle toggles "food" then 3 else 0
      sportsbar := if getToggle toggles "sportsbar" then 3 else 0
      surprise := if getToggle toggles "surprise" then 3 else 0 }

/-- A candidate row as consumed by the scorer: a `distance_m` value
(`Option.none` = missing) and the three feature cells.  A feature column
that is absent from the table behaves exactly like a NaN cell in
`row_bonus` (both contribute nothing), so both are `Cell.none` here. -/
structure Venue where
  distance_m : Option ℚ
  food : Cell
  sportsbar : Cell
  surprise : Cell
deriving DecidableEq

/-- Embeds `model_data.distance_score`.  A `None` distance yields 0.0; a
missing pool minimum/maximum makes the denominator 0.0 which (like a zero
range) yields the neutral 0.5; otherwise the linear rescaling
`(d_max - d) / (d_max - d_min)`. -/
def distance_score (d? : Option ℚ) (dmin? dmax? : Option ℚ) : ℚ :=
  match d? with
  | Option.none => 0
  | some d =>
      match dmin?, dmax? with
      | some dmin, some dmax =>
          if dmax - dmin ≤ 0 then 1/2 else (dmax - d) / (dmax - dmin)
      | _, _ => 1/2

/-- Minimum of a list of rationals (`None` on the empty list); embeds
`df["distance_m"].min()` which skips missing values. -/
def listMin : List ℚ → Option ℚ
  | [] => Option.none
  | x :: xs =>
      match listMin xs with
      | Option.none => some x
      | some m => some (min x m)

/-- Maximum of a list of rationals (`None` on the empty list); embeds
`df["distance_m"].max()` which skips missing values. -/
def listMax : List ℚ → Option ℚ
  | [] => Option.none
  | x :: xs =>
      match listMax xs with
      | Option.none => some x
      | some m => some (max x m)

/-- Pool minimum distance over the valid (non-missing) distances. -/
def pool_dmin (pool : List Venue) : Option ℚ :=
  listMin (pool.filterMap Venue.distance_m)

/-- Pool maximum distance over the valid (non-missing) distances. -/
def pool_dmax (pool : List Venue) : Option ℚ :=
  listMax (pool.filterMap Venue.distance_m)

/-- Embeds `row_bonus` inside `model_data.compute_scores`: for each feature
whose cell is present/non-empty, add that feature's derived weight. -/
def row_bonus (w : Weights) (v : Venue) : ℚ :=
  (if has_feature v.food then w.food else 0)
    + (if has_feature v.sportsbar then w.sportsbar else 0)
    + (if has_feature v.surprise then w.surprise else 0)

/-- Final score of one row, embedding the per-row computation of
`model_data.compute_scores`:
`score = w.distance * dist_score + pref_bonus`, where the distance is
normalized against the pool's min/max distance. -/
def compute_score (toggles : List (String × Bool)) (pool : List Venue)
    (v : Venue) : ℚ :=
  let w := derive_weights toggles DEFAULT_WEIGHTS
  w.distance * distance_score v.distance_m (pool_dmin pool) (pool_dmax pool)
    + row_bonus w v

/-- Embeds `model_data.compute_scores`: every row of the pool paired with
its final score. -/
def compute_scores (pool : List Venue) (toggles : List (String × Bool)) :
    List (Venue × ℚ) :=
  pool.map (fun v => (v, compute_score toggles pool v))

/-- Day abbreviations, embedding the `days` list of `is_open_now_basic`;
index 0 = Monday, matching Python `datetime.weekday()`. -/
def DAYS : List String := ["Mo", "Tu", "We", "Th", "Fr", "Sa", "Su"]

/-- Numeric value of an ASCII digit character. -/
def digitVal (c : Char) : Nat := c.toNat - 48

/-- Match one day-abbreviation alternative
`(Mo|Tu|We|Th|Fr|Sa|Su)` at the head of the input.  The seven
alternatives are two characters each and pairwise distinct, so the
regex alternation is deterministic. -/
def parseDay : List Char → Option (String × List Char)
  | c1 :: c2 :: rest =>
      let s := String.mk [c1, c2]
      if DAYS.contains s then some (s, rest) else Option.none
  | _ => Option.none

/-- Greedy star of whitespace; the characters that follow it in the
pattern (a dash or a digit) are never whitespace, so greediness never
needs to backtrack. -/
def skipWS (cs : List Char) : List Char := cs.dropWhile isWS

/-- Match one mandatory whitespace then greedy star of whitespace
(the plus of whitespace in the pattern). -/
def parseWS1 : List Char → Option (List Char)
  | c :: rest => if isWS c then some (skipWS rest) else Option.none
  | _ => Option.none

/-- Two-digit-hour branch of the time group: `dd:dd`, value in minutes. -/
def parseTime2 : List Char → Option (Nat × List Char)
  | a :: b :: c :: d :: e :: rest =>
      if a.isDigit && b.isDigit && c == ':' && d.isDigit && e.isDigit then
        some ((digitVal a * 10 + digitVal b) * 60 + digitVal d * 10 + digitVal e, rest)
      else Option.none
  | _ => Option.none

/-- One-digit-hour branch of the time group: `d:dd`, value in minutes. -/
def parseTime1 : List Char → Option (Nat × List Char)
  | a :: c :: d :: e :: rest =>
      if a.isDigit && c == ':' && d.isDigit && e.isDigit then
        some (digitVal a * 60 + digitVal d * 10 + digitVal e, rest)
      else Option.none
  | _ => Option.none

/-- The time group of the pattern (one or two digit hour, colon, exactly
two digit minutes), converted to minutes exactly as the Python
`to_min` helper does (`int(h) * 60 + int(mm)`); no clock-range
validation whatsoever.  The greedy one-or-two-digit hour tries two
digits first; the two branches are mutually exclusive (the second
character cannot be both a digit and a colon), so no further
backtracking can occur. -/
def parseTime (cs : List Char) : Option (Nat × List Char) :=
  match parseTime2 cs with
  | some r => some r
  | Option.none => parseTime1 cs

/-- Expect a dash surrounded by greedy optional whitespace. -/
def parseDash (cs : List Char) : Option (List Char) :=
  match skipWS cs with
  | '-' :: rest => some (skipWS rest)
  | _ => Option.none

/-- Attempt to match the whole pattern
day, star-ws, dash, star-ws, day, plus-ws, time, star-ws, dash, star-ws, time
at the current position (trailing input is ignored, as the regex is
unanchored).  Returns the four captured groups with the times already
in minutes. -/
def matchAt (cs : List Char) : Option (String × String × Nat × Nat) :=
  match parseDay cs with
  | Option.none => Option.none
  | some (a, cs1) =>
      match parseDash cs1 with
      | Option.none => Option.none
      | some cs2 =>
          match parseDay cs2 with
          | Option.none => Option.none
          | some (b, cs3) =>
              match parseWS1 cs3 with
              | Option.none => Option.none
              | some cs4 =>
                  match parseTime cs4 with
                  | Option.none => Option.none
                  | some (t1, cs5) =>
                      match parseDash cs5 with
                      | Option.none => Option.none
                      | some cs6 =>
                          match parseTime cs6 with
                          | Option.none => Option.none
                          | some (t2, _) => some (a, b, t1, t2)

/-- Embeds `re.search` with the day-range/hour-range pattern of
`is_open_now_basic`: try to match at every position from left to
right and return the leftmost match's groups. -/
def regexSearch : List Char → Option (String × String × Nat × Nat)
  | [] => Option.none
  | c :: rest =>
      match matchAt (c :: rest) with
      | some r => some r
      | Option.none => regexSearch rest

/-- Embeds `valid_days = days[ia:ib+1] if ia <= ib else days[ia:] + days[:ib+1]`
with `ia`/`ib` the first indices of the two captured day abbreviations. -/
def valid_days (a b : String) : List String :=
  let ia := DAYS.indexOf a
  let ib := DAYS.indexOf b
  if ia ≤ ib then (DAYS.drop ia).take (ib + 1 - ia)
  else DAYS.drop ia ++ DAYS.take (ib + 1)

/-- A reference timestamp as used by the evaluator: Python weekday
(0 = Monday ... 6 = Sunday), hour and minute. -/
structure Now where
  weekday : Fin 7
  hour : Nat
  minute : Nat

/-- The decision taken by `is_open_now_basic` once the pattern has
matched: closed when the weekday is outside the day set; otherwise the
inclusive in-range test, or the overnight wrap test when the start
minute exceeds the end minute. -/
def eval_parsed (a b : String) (start_min end_min : Nat) (now : Now) : Bool :=
  let wd := DAYS.getD now.weekday.val ""
  let now_min := now.hour * 60 + now.minute
  if wd ∈ valid_days a b then
    if start_min ≤ end_min then
      decide (start_min ≤ now_min) && decide (now_min ≤ end_min)
    else
      decide (start_min ≤ now_min) || decide (now_min ≤ end_min)
  else false

/-- Embeds `model_data.is_open_now_basic` (identical in `helpers.py`):
`None` for non-string or blank input, `None` when the pattern occurs
nowhere in the stripped string, otherwise the tri-state open/closed
decision on the first occurrence. -/
def is_open_now_basic (c : Cell) (now : Now) : Option Bool :=
  match c with
  | Cell.str s =>
      if pyStrip s.data = [] then Option.none
      else
        match regexSearch (pyStrip s.data) with
        | some (a, b, t1, t2) => some (eval_parsed a b t1 t2 now)
        | Option.none => Option.none
  | _ => Option.none

/-- Embeds the score mapping of `add_opening_hours_features`:
True maps to 1.0, False to 0.0, None to 0.5. -/
def open_score (r : Option Bool) : ℚ :=
  match r with
  | some true => 1
  | some false => 0
  | Option.none => 1/2

/-- Distance sort key used once the missing-distance rows have been
dropped (`getD 0` is never reached on a valid row). -/
def distKey (v : Venue) : ℚ := v.distance_m.getD 0

/-- Ascending-distance ordering on valid candidate rows. -/
def distLE (u v : Venue) : Prop := distKey u ≤ distKey v

instance : DecidableRel distLE :=
  fun u v => inferInstanceAs (Decidable (distKey u ≤ distKey v))

instance : IsTotal Venue distLE :=
  ⟨fun u v => le_total (distKey u) (distKey v)⟩

instance : IsTrans Venue distLE :=
  ⟨fun _ _ _ h1 h2 => le_trans h1 h2⟩

/-- Embeds `df.dropna(subset=["distance_m"])`'s row predicate. -/
def validDist (v : Venue) : Bool := v.distance_m.isSome

/-- Contract of the pandas `sort_values("distance_m", ascending=True)` call
of `select_candidates`: the result is ascending in the distance key and a
permutation of the input.  The call uses the default sort kind
(`quicksort`), which pandas documents as not stable, so the order of rows
with equal distance is implementation-defined and deliberately not part
of this contract. -/
def pandasSortOk (sortFn : List Venue → List Venue) : Prop :=
  ∀ l : List Venue, List.Sorted distLE (sortFn l) ∧ List.Perm (sortFn l) l

/-- Embeds `model_data.select_candidates` (identical in `helpers.py`) up
to the choice of the underlying sort: drop rows with missing
`distance_m`, sort ascending by `distance_m`, keep the first `2*k` rows.
The sort is a parameter (constrained by `pandasSortOk` where properties
are proved) because the source's `sort_values` leaves the permutation at
equal keys to the numpy sort kind. -/
def select_candidates (sortFn : List Venue → List Venue) (rows : List Venue)
    (k : Nat) : List Venue :=
  (sortFn (rows.filter validDist)).take (2 * k)

/-- One admissible sort under `pandasSortOk` (the behaviour of the
explicit `kind="stable"` option), used only to instantiate the generic
lemmas on concrete inputs. -/
def sortByDist : List Venue → List Venue :=
  List.insertionSort distLE

/-- Ascending comparison on optional distances with missing values last,
as pandas sorts NaN keys last. -/
def optDistLE : Option ℚ → Option ℚ → Prop
  | some a, some b => a ≤ b
  | some _, Option.none => True
  | Option.none, some _ => False
  | Option.none, Option.none => True

instance : DecidableRel optDistLE
  | some a, some b => inferInstanceAs (Decidable (a ≤ b))
  | some _, Option.none => inferInstanceAs (Decidable True)
  | Option.none, some _ => inferInstanceAs (Decidable False)
  | Option.none, Option.none => inferInstanceAs (Decidable True)

/-- The two-key ordering of `model_data.rank_bars`: final score
descending, then distance ascending. -/
def rankLE (a b : Venue × ℚ) : Prop :=
  b.2 < a.2 ∨ (a.2 = b.2 ∧ optDistLE a.1.distance_m b.1.distance_m)

instance : DecidableRel rankLE :=
  fun a b =>
    inferInstanceAs
      (Decidable (b.2 < a.2 ∨ (a.2 = b.2 ∧ optDistLE a.1.distance_m b.1.distance_m)))

instance : IsTotal (Venue × ℚ) rankLE := by
  refine ⟨fun a b => ?_⟩
  have hor : optDistLE a.1.distance_m b.1.distance_m ∨
      optDistLE b.1.distance_m a.1.distance_m := by
    cases a.1.distance_m <;> cases b.1.distance_m <;> simp [optDistLE]
    exact le_total _ _
  rcases lt_trichotomy a.2 b.2 with h | h | h
  · exact Or.inr (Or.inl h)
  · rcases hor with hd | hd
    · exact Or.inl (Or.inr ⟨h, hd⟩)
    · exact Or.inr (Or.inr ⟨h.symm, hd⟩)
  · exact Or.inl (Or.inl h)

instance : IsTrans (Venue × ℚ) rankLE := by
  refine ⟨fun a b c hab hbc => ?_⟩
  have htr : ∀ x y z : Option ℚ, optDistLE x y → optDistLE y z →
      optDistLE x z := by
    intro x y z h1 h2
    cases x <;> cases y <;> cases z <;> simp_all [optDistLE]
    exact le_trans h1 h2
  rcases hab with hab | ⟨hab, had⟩
  · rcases hbc with hbc | ⟨hbc, _⟩
    · exact Or.inl (lt_trans hbc hab)
    · exact Or.inl (hbc ▸ hab)
  · rcases hbc with hbc | ⟨hbc, hbd⟩
    · exact Or.inl (hab ▸ hbc)
    · exact Or.inr ⟨hab.trans hbc, htr _ _ _ had hbd⟩

/-- Embeds `model_data.rank_bars`: score the pool, then sort by final
score descending with ascending distance as tie-break
(`sort_values(["score", "distance_m"], ascending=[False, True])`). -/
def rank_bars (rows : List Venue) (toggles : List (String × Bool)) :
    List (Venue × ℚ) :=
  List.insertionSort rankLE (compute_scores rows toggles)

/-- A raw venue row as consumed by the normalizer: the fields
`normalize_df` touches plus `name` as the untouched payload. -/
structure RawRow where
  name : Cell
  lat : Cell
  lon : Cell
  opening_hours : Cell
  opening_hours_raw : Cell
deriving DecidableEq

/-- A raw venue table: the normalizer branches on which columns exist, so
column presence is table-level state; a row field of a column whose flag
is false is phantom and ignored. -/
structure RawTable where
  hasLat : Bool
  hasLon : Bool
  hasOH : Bool
  hasOHRaw : Bool
  rows : List RawRow
deriving DecidableEq

/-- Value of a digit string, most significant first. -/
def digitsVal (cs : List Char) : ℚ :=
  cs.foldl (fun n c => n * 10 + (digitVal c : ℚ)) 0

/-- Decimal-notation branch of numeric coercion: digits with an optional
fractional part. -/
def parseUnsigned (cs : List Char) : Option ℚ :=
  let ip := cs.takeWhile Char.isDigit
  let rest := cs.dropWhile Char.isDigit
  match rest with
  | [] => if ip.isEmpty then Option.none else some (digitsVal ip)
  | '.' :: frac =>
      if frac.all Char.isDigit && !(ip.isEmpty && frac.isEmpty) then
        some (digitsVal ip + digitsVal frac / (10 : ℚ) ^ frac.length)
      else Option.none
  | _ => Option.none

/-- Numeric parsing of a string cell as `pd.to_numeric` accepts plain
decimal notation: optional sign, digits, optional fraction.  `None` means
the value is not parsable and coerces to NaN. -/
def parseNumeric (s : String) : Option ℚ :=
  match pyStrip s.data with
  | '-' :: rest => (parseUnsigned rest).map (fun q => -q)
  | '+' :: rest => parseUnsigned rest
  | cs => parseUnsigned cs

/-- Embeds `pd.to_numeric(col, errors="coerce")` on one cell: numbers stay,
missing stays missing (NaN), strings parse to a number or coerce to NaN. -/
def to_numeric (c : Cell) : Cell :=
  match c with
  | Cell.none => Cell.none
  | Cell.num q => Cell.num q
  | Cell.str s =>
      match parseNumeric s with
      | some q => Cell.num q
      | Option.none => Cell.none

/-- The lat/lon coercion step of `normalize_df`, guarded per column by its
presence flag. -/
def coerce_latlon (hasLat hasLon : Bool) (r : RawRow) : RawRow :=
  { r with
    lat := if hasLat then to_numeric r.lat else r.lat
    lon := if hasLon then to_numeric r.lon else r.lon }

/-- The `df["opening_hours_raw"] = df["opening_hours"]` step of
`normalize_df`. -/
def copy_ohraw (r : RawRow) : RawRow :=
  { r with opening_hours_raw := r.opening_hours }

/-- Embeds `model_data.normalize_df`: coerce `lat`/`lon` to numeric when
those columns exist, and create `opening_hours_raw` from `opening_hours`
when only the latter exists. -/
def normalize_df (t : RawTable) : RawTable :=
  let rows1 := t.rows.map (coerce_latlon t.hasLat t.hasLon)
  if !t.hasOHRaw && t.hasOH then
    { t with hasOHRaw := true, rows := rows1.map copy_ohraw }
  else
    { t with rows := rows1 }

/-- Helper: with no toggle among `FEATURES` enabled, `derive_weights`
returns the base weight set unchanged (Case 1 of the source). -/
theorem derive_weights_of_none_enabled (tg : List (String × Bool)) (base : Weights)
    (hf : getToggle tg "food" = false) (hs : getToggle tg "sportsbar" = false)
    (hsu : getToggle tg "surprise" = false) :
    derive_weights tg base = base := by
  simp [derive_weights, FEATURES, hf, hs, hsu]

/-- Helper: with exactly the food toggle enabled, the derived weights are
distance 5, food 3, others 0. -/
theorem derive_weights_food_only (tg : List (String × Bool))
    (hf : getToggle tg "food" = true) (hs : getToggle tg "sportsbar" = false)
    (hsu : getToggle tg "surprise" = false) :
    derive_weights tg DEFAULT_WEIGHTS =
      { distance := 5, food := 3, sportsbar := 0, surprise := 0 } := by
  simp [derive_weights, FEATURES, hf, hs, hsu, DEFAULT_WEIGHTS]

/-- Helper: with exactly the sportsbar toggle enabled, the derived weights
are distance 5, sportsbar 3, others 0. -/
theorem derive_weights_sportsbar_only (tg : List (String × Bool))
    (hf : getToggle tg "food" = false) (hs : getToggle tg "sportsbar" = true)
    (hsu : getToggle tg "surprise" = false) :
    derive_weights tg DEFAULT_WEIGHTS =
      { distance := 5, food := 0, sportsbar := 3, surprise := 0 } := by
  simp [derive_weights, FEATURES, hf, hs, hsu, DEFAULT_WEIGHTS]

/-- Helper: with exactly the surprise toggle enabled, the derived weights
are distance 5, surprise 3, others 0. -/
theorem derive_weights_surprise_only (tg : List (String × Bool))
    (hf : getToggle tg "food" = false) (hs : getToggle tg "sportsbar" = false)
    (hsu : getToggle tg "surprise" = true) :
    derive_weights tg DEFAULT_WEIGHTS =
      { distance := 5, food := 0, sportsbar := 0, surprise := 3 } := by
  simp [derive_weights, FEATURES, hf, hs, hsu, DEFAULT_WEIGHTS]

/-- C1 (amended): with zero preference toggles enabled, two candidates of
the same pool whose `distance_m` values are equal receive exactly equal
final score provided they agree on the presence of each feature column
(`food`, `sportsbar`, `surprise`); presence is what gates the flat 0.5
base bonus per feature. -/
theorem c1_equal_presence_equal_score :
    ∀ (tg : List (String × Bool)) (pool : List Venue) (v1 v2 : Venue),
      getToggle tg "food" = false → getToggle tg "sportsbar" = false →
      getToggle tg "surprise" = false →
      v1.distance_m = v2.distance_m →
      has_feature v1.food = has_feature v2.food →
      has_feature v1.sportsbar = has_feature v2.sportsbar →
      has_feature v1.surprise = has_feature v2.surprise →
      compute_score tg pool v1 = compute_score tg pool v2 := by
  intro tg pool v1 v2 hf hs hsu hd h1 h2 h3
  unfold compute_score row_bonus
  rw [derive_weights_of_none_enabled tg _ hf hs hsu, hd, h1, h2, h3]

/-- C1 counterexample: with zero toggles enabled, two candidates at equal
distance 100 but with the food cell present on one and absent on the
other receive different scores (3.0 vs 2.5), refuting the claim that the
score is independent of which feature columns are present. -/
theorem c1_counterexample :
    compute_score [] [⟨some 100, Cell.str "yes", Cell.none, Cell.none⟩,
        ⟨some 100, Cell.none, Cell.none, Cell.none⟩]
      ⟨some 100, Cell.str "yes", Cell.none, Cell.none⟩ ≠
    compute_score [] [⟨some 100, Cell.str "yes", Cell.none, Cell.none⟩,
        ⟨some 100, Cell.none, Cell.none, Cell.none⟩]
      ⟨some 100, Cell.none, Cell.none, Cell.none⟩ := by
  have h1 : has_feature (Cell.str "yes") = true := by decide
  have h2 : has_feature Cell.none = false := by decide
  simp [compute_score, derive_weights, DEFAULT_WEIGHTS, FEATURES, getToggle,
    distance_score, pool_dmin, pool_dmax, listMin, listMax, row_bonus, h1, h2]

/-- C1 witness: two equal-distance candidates that both have a non-empty
food cell get equal scores under the empty toggle set. -/
theorem c1_witness :
    compute_score [] [⟨some 100, Cell.str "yes", Cell.none, Cell.none⟩,
        ⟨some 100, Cell.str "ja", Cell.none, Cell.none⟩]
      ⟨some 100, Cell.str "yes", Cell.none, Cell.none⟩ =
    compute_score [] [⟨some 100, Cell.str "yes", Cell.none, Cell.none⟩,
        ⟨some 100, Cell.str "ja", Cell.none, Cell.none⟩]
      ⟨some 100, Cell.str "ja", Cell.none, Cell.none⟩ :=
  c1_equal_presence_equal_score [] _ _ _ rfl rfl rfl rfl (by decide) (by decide)
    (by decide)

/-- C8: with exactly one preference toggle enabled (each of the three cases
food / sportsbar / surprise), a venue whose corresponding feature cell is
present scores strictly higher than an otherwise-identical venue without
it, at equal distance in the same pool. -/
theorem c8_single_toggle_matching_venue_wins :
    (∀ (tg : List (String × Bool)) (pool : List Venue) (v1 v2 : Venue),
      getToggle tg "food" = true → getToggle tg "sportsbar" = false →
      getToggle tg "surprise" = false →
      v1.distance_m = v2.distance_m →
      has_feature v1.food = true → has_feature v2.food = false →
      has_feature v1.sportsbar = has_feature v2.sportsbar →
      has_feature v1.surprise = has_feature v2.surprise →
      compute_score tg pool v2 < compute_score tg pool v1) ∧
    (∀ (tg : List (String × Bool)) (pool : List Venue) (v1 v2 : Venue),
      getToggle tg "food" = false → getToggle tg "sportsbar" = true →
      getToggle tg "surprise" = false →
      v1.distance_m = v2.distance_m →
      has_feature v1.sportsbar = true → has_feature v2.sportsbar = false →
      has_feature v1.food = has_feature v2.food →
      has_feature v1.surprise = has_feature v2.surprise →
      compute_score tg pool v2 < compute_score tg pool v1) ∧
    (∀ (tg : List (String × Bool)) (pool : List Venue) (v1 v2 : Venue),
      getToggle tg "food" = false → getToggle tg "sportsbar" = false →
      getToggle tg "surprise" = true →
      v1.distance_m = v2.distance_m →
      has_feature v1.surprise = true → has_feature v2.surprise = false →
      has_feature v1.food = has_feature v2.food →
      has_feature v1.sportsbar = has_feature v2.sportsbar →
      compute_score tg pool v2 < compute_score tg pool v1) := by
  refine ⟨?_, ?_, ?_⟩ <;> intro tg pool v1 v2 hf hs hsu hd ha1 ha2 hb hc
  · unfold compute_score row_bonus
    rw [derive_weights_food_only tg hf hs hsu, hd, ha1, ha2, hb, hc]
    simp [ite_self]
  · unfold compute_score row_bonus
    rw [derive_weights_sportsbar_only tg hf hs hsu, hd, ha1, ha2, hb, hc]
    simp [ite_self]
  · unfold compute_score row_bonus
    rw [derive_weights_surprise_only tg hf hs hsu, hd, ha1, ha2, hb, hc]
    simp [ite_self]

/-- C8 witness: with only the food toggle on, the venue with a food cell
beats the equal-distance venue without one. -/
theorem c8_witness :
    compute_score [("food", true)]
      [⟨some 100, Cell.none, Cell.none, Cell.none⟩,
        ⟨some 100, Cell.str "yes", Cell.none, Cell.none⟩]
      ⟨some 100, Cell.none, Cell.none, Cell.none⟩ <
    compute_score [("food", true)]
      [⟨some 100, Cell.none, Cell.none, Cell.none⟩,
        ⟨some 100, Cell.str "yes", Cell.none, Cell.none⟩]
      ⟨some 100, Cell.str "yes", Cell.none, Cell.none⟩ :=
  c8_single_toggle_matching_venue_wins.1 [("food", true)] _ _ _ (by decide)
    (by decide) (by decide) rfl (by decide) (by decide) (by decide) (by decide)

/-- C10: toggle keys outside the fixed feature list (such as the UI's
"football" and "karaoke") are ignored by weight derivation: whenever no
key of `FEATURES` is enabled, the derived weights are the base set,
identical to the result for the empty toggle mapping. -/
theorem c10_unknown_toggle_keys_ignored :
    ∀ tg : List (String × Bool),
      getToggle tg "food" = false → getToggle tg "sportsbar" = false →
      getToggle tg "surprise" = false →
      derive_weights tg DEFAULT_WEIGHTS = DEFAULT_WEIGHTS ∧
      derive_weights tg DEFAULT_WEIGHTS = derive_weights [] DEFAULT_WEIGHTS := by
  intro tg hf hs hsu
  constructor
  · exact derive_weights_of_none_enabled tg _ hf hs hsu
  · rw [derive_weights_of_none_enabled tg _ hf hs hsu,
      derive_weights_of_none_enabled [] _ rfl rfl rfl]

/-- C10 witness: the UI shell's toggle mapping with "football" and
"karaoke" enabled derives the unchanged base weights. -/
theorem c10_witness :
    derive_weights [("football", true), ("karaoke", true)] DEFAULT_WEIGHTS =
      DEFAULT_WEIGHTS :=
  (c10_unknown_toggle_keys_ignored [("football", true), ("karaoke", true)]
    (by decide) (by decide) (by decide)).1

/-- Helper: `listMin` returns `None` exactly on the empty list. -/
theorem listMin_eq_none_iff (l : List ℚ) : listMin l = Option.none ↔ l = [] := by
  cases l with
  | nil => simp [listMin]
  | cons x xs =>
      simp only [listMin]
      cases listMin xs <;> simp

/-- Helper: the value of `listMin` is a lower bound of the list. -/
theorem listMin_le_of_mem :
    ∀ {l : List ℚ} {m a : ℚ}, listMin l = some m → a ∈ l → m ≤ a := by
  intro l
  induction l with
  | nil => intro m a hm ha; simp at ha
  | cons x xs ih =>
      intro m a hm ha
      rw [listMin] at hm
      cases hxs : listMin xs with
      | none =>
          rw [hxs] at hm
          have hx : x = m := Option.some.inj hm
          have hxe : xs = [] := (listMin_eq_none_iff xs).mp hxs
          subst hxe
          rcases List.mem_cons.mp ha with h | h
          · exact le_of_eq (hx ▸ h.symm ▸ rfl)
          · simp at h
      | some mx =>
          rw [hxs] at hm
          have hx : min x mx = m := Option.some.inj hm
          rcases List.mem_cons.mp ha with h | h
          · exact hx ▸ h ▸ min_le_left x mx
          · exact le_trans (hx ▸ min_le_right x mx) (ih hxs h)

/-- Helper: `listMax` returns `None` exactly on the empty list. -/
theorem listMax_eq_none_iff (l : List ℚ) : listMax l = Option.none ↔ l = [] := by
  cases l with
  | nil => simp [listMax]
  | cons x xs =>
      simp only [listMax]
      cases listMax xs <;> simp

/-- Helper: the value of `listMax` is an upper bound of the list. -/
theorem le_listMax_of_mem :
    ∀ {l : List ℚ} {m a : ℚ}, listMax l = some m → a ∈ l → a ≤ m := by
  intro l
  induction l with
  | nil => intro m a hm ha; simp at ha
  | cons x xs ih =>
      intro m a hm ha
      rw [listMax] at hm
      cases hxs : listMax xs with
      | none =>
          rw [hxs] at hm
          have hx : x = m := Option.some.inj hm
          have hxe : xs = [] := (listMax_eq_none_iff xs).mp hxs
          subst hxe
          rcases List.mem_cons.mp ha with h | h
          · exact le_of_eq (hx ▸ h ▸ rfl)
          · simp at h
      | some mx =>
          rw [hxs] at hm
          have hx : max x mx = m := Option.some.inj hm
          rcases List.mem_cons.mp ha with h | h
          · exact hx ▸ h ▸ le_max_left x mx
          · exact le_trans (ih hxs h) (hx ▸ le_max_right x mx)

/-- C2 (amended): the normalized distance score of a pool member with a
valid distance lies in [0,1]; with valid pool bounds and a positive range
it equals `(d_max - d) / (d_max - d_min)`; a zero or negative range and
missing pool bounds both yield the neutral 0.5; but a candidate whose own
distance is missing (`None`) receives 0.0, not 0.5. -/
theorem c2_distance_score_normalization :
    (∀ (pool : List Venue) (v : Venue) (d : ℚ), v ∈ pool → v.distance_m = some d →
      0 ≤ distance_score v.distance_m (pool_dmin pool) (pool_dmax pool) ∧
      distance_score v.distance_m (pool_dmin pool) (pool_dmax pool) ≤ 1) ∧
    (∀ d dmin dmax : ℚ, dmin ≤ d → d ≤ dmax → dmin < dmax →
      distance_score (some d) (some dmin) (some dmax) = (dmax - d) / (dmax - dmin)) ∧
    (∀ d dmin dmax : ℚ, dmax ≤ dmin →
      distance_score (some d) (some dmin) (some dmax) = 1/2) ∧
    (∀ d : ℚ, distance_score (some d) Option.none Option.none = 1/2) ∧
    (∀ dmin? dmax? : Option ℚ, distance_score Option.none dmin? dmax? = 0) := by
  refine ⟨?_, ?_, ?_, ?_, ?_⟩
  · intro pool v d hv hd
    have hdm : d ∈ pool.filterMap Venue.distance_m :=
      List.mem_filterMap.mpr ⟨v, hv, hd⟩
    cases hmin : pool_dmin pool with
    | none =>
        rw [pool_dmin, listMin_eq_none_iff] at hmin
        rw [hmin] at hdm
        simp at hdm
    | some dmin =>
        cases hmax : pool_dmax pool with
        | none =>
            rw [pool_dmax, listMax_eq_none_iff] at hmax
            rw [hmax] at hdm
            simp at hdm
        | some dmax =>
            have h1 : dmin ≤ d := listMin_le_of_mem hmin hdm
            have h2 : d ≤ dmax := le_listMax_of_mem hmax hdm
            rw [hd]
            by_cases hz : dmax - dmin ≤ 0
            · simp [distance_score, hz]
              norm_num
            · push_neg at hz
              have hpos : 0 < dmax - dmin := hz
              simp [distance_score, not_le.mpr hpos]
              constructor
              · exact div_nonneg (by linarith) (le_of_lt hpos)
              · rw [div_le_one hpos]
                linarith
  · intro d dmin dmax h1 h2 h3
    simp [distance_score, not_le.mpr (by linarith : (0:ℚ) < dmax - dmin)]
  · intro d dmin dmax h
    simp [distance_score, (by linarith : dmax - dmin ≤ 0)]
  · intro d
    rfl
  · intro dmin? dmax?
    rfl

/-- C2 counterexample: a candidate with missing (`None`) distance receives
normalized score 0.0, refuting the claimed 0.5 default for unavailable
distance data. -/
theorem c2_counterexample :
    distance_score Option.none (some 0) (some 10) = 0 ∧
    distance_score Option.none (some 0) (some 10) ≠ 1/2 := by
  refine ⟨rfl, ?_⟩
  have h : distance_score Option.none (some 0) (some 10) = 0 := rfl
  rw [h]
  norm_num

/-- C2 witness: a singleton pool member gets a score in [0,1], and concrete
bounds 0/10 with distance 3 give the rescaling formula value. -/
theorem c2_witness :
    (0 ≤ distance_score (some 5)
        (pool_dmin [⟨some 5, Cell.none, Cell.none, Cell.none⟩])
        (pool_dmax [⟨some 5, Cell.none, Cell.none, Cell.none⟩]) ∧
      distance_score (some 5)
        (pool_dmin [⟨some 5, Cell.none, Cell.none, Cell.none⟩])
        (pool_dmax [⟨some 5, Cell.none, Cell.none, Cell.none⟩]) ≤ 1) ∧
    distance_score (some 3) (some 0) (some 10) = (10 - 3) / (10 - 0) := by
  constructor
  · exact c2_distance_score_normalization.1
      [⟨some 5, Cell.none, Cell.none, Cell.none⟩]
      ⟨some 5, Cell.none, Cell.none, Cell.none⟩ 5 (List.mem_singleton.mpr rfl) rfl
  · exact c2_distance_score_normalization.2.1 3 0 10 (by norm_num) (by norm_num)
      (by norm_num)

/-- C3 (amended): for every input in which the day-range/hour-range
pattern occurs nowhere — every non-string or blank cell, and every string
whose stripped text contains no occurrence of the pattern (for example
"24/7") — the evaluator returns `None` ("unknown") and the open score is
0.5; the function is total, so no error is ever raised.  Matching is by
substring search, so a string that merely contains the pattern (e.g. the
first rule of a multi-rule value) is evaluated instead. -/
theorem c3_unparsable_yields_unknown :
    ∀ (c : Cell) (now : Now),
      (∀ s, c = Cell.str s → regexSearch (pyStrip s.data) = Option.none) →
      is_open_now_basic c now = Option.none ∧
      open_score (is_open_now_basic c now) = 1/2 := by
  intro c now h
  cases c with
  | none => exact ⟨rfl, rfl⟩
  | num q => exact ⟨rfl, rfl⟩
  | str s =>
      have hs := h s rfl
      by_cases he : pyStrip s.data = []
      · simp [is_open_now_basic, he, open_score]
      · simp [is_open_now_basic, he, hs, open_score]

/-- C3 counterexample: the multi-rule string
"Mo-Fr 09:00-17:00; Sa 10:00-14:00" is not exactly the single recognized
pattern, yet the evaluator parses its first rule and returns open (score
1.0) at Wednesday 10:00 instead of the claimed "unknown"/0.5. -/
theorem c3_counterexample :
    is_open_now_basic (Cell.str "Mo-Fr 09:00-17:00; Sa 10:00-14:00") ⟨2, 10, 0⟩ =
        some true ∧
    open_score
        (is_open_now_basic (Cell.str "Mo-Fr 09:00-17:00; Sa 10:00-14:00")
          ⟨2, 10, 0⟩) ≠ 1/2 := by
  have h : is_open_now_basic (Cell.str "Mo-Fr 09:00-17:00; Sa 10:00-14:00")
      ⟨2, 10, 0⟩ = some true := by decide
  refine ⟨h, ?_⟩
  rw [h]
  have h2 : open_score (some true) = 1 := rfl
  rw [h2]
  norm_num

/-- C3 witness: "24/7" contains no occurrence of the pattern, so the
evaluator yields unknown with open score 0.5. -/
theorem c3_witness :
    is_open_now_basic (Cell.str "24/7") ⟨2, 10, 0⟩ = Option.none ∧
    open_score (is_open_now_basic (Cell.str "24/7") ⟨2, 10, 0⟩) = 1/2 :=
  c3_unparsable_yields_unknown (Cell.str "24/7") ⟨2, 10, 0⟩
    (fun s hs => by cases hs; decide)

/-- C4: the parsed day range is inclusive and wraps circularly when the end
day's index is below the start's; a timestamp whose weekday is outside the
day set is closed; on a valid day the venue is open iff the current minute
lies in the inclusive [start, end] span, or, when start exceeds end
(overnight), iff it is at or after start or at or before end.  The four
concrete spec examples evaluate accordingly. -/
theorem c4_day_and_hour_semantics :
    (∀ ia ib idx : Fin 7,
      DAYS.getD idx.val "" ∈ valid_days (DAYS.getD ia.val "") (DAYS.getD ib.val "") ↔
        (if ia.val ≤ ib.val then ia.val ≤ idx.val ∧ idx.val ≤ ib.val
          else ia.val ≤ idx.val ∨ idx.val ≤ ib.val)) ∧
    (∀ (a b : String) (t1 t2 : Nat) (now : Now),
      DAYS.getD now.weekday.val "" ∉ valid_days a b →
      eval_parsed a b t1 t2 now = false) ∧
    (∀ (a b : String) (t1 t2 : Nat) (now : Now),
      DAYS.getD now.weekday.val "" ∈ valid_days a b → t1 ≤ t2 →
      (eval_parsed a b t1 t2 now = true ↔
        (t1 ≤ now.hour * 60 + now.minute ∧ now.hour * 60 + now.minute ≤ t2))) ∧
    (∀ (a b : String) (t1 t2 : Nat) (now : Now),
      DAYS.getD now.weekday.val "" ∈ valid_days a b → t2 < t1 →
      (eval_parsed a b t1 t2 now = true ↔
        (t1 ≤ now.hour * 60 + now.minute ∨ now.hour * 60 + now.minute ≤ t2))) ∧
    is_open_now_basic (Cell.str "Mo-Fr 09:00-17:00") ⟨2, 10, 0⟩ = some true ∧
    is_open_now_basic (Cell.str "Mo-Fr 09:00-17:00") ⟨2, 18, 0⟩ = some false ∧
    is_open_now_basic (Cell.str "Mo-Fr 09:00-17:00") ⟨5, 10, 0⟩ = some false ∧
    is_open_now_basic (Cell.str "Fr-Sa 20:00-02:00") ⟨5, 1, 0⟩ = some true := by
  refine ⟨by decide, ?_, ?_, ?_, by decide, by decide, by decide, by decide⟩
  · intro a b t1 t2 now h
    simp only [eval_parsed]
    rw [if_neg h]
  · intro a b t1 t2 now h hle
    simp only [eval_parsed]
    rw [if_pos h, if_pos hle]
    simp [Bool.and_eq_true, decide_eq_true_iff]
  · intro a b t1 t2 now h hlt
    simp only [eval_parsed]
    rw [if_pos h, if_neg (Nat.not_le.mpr hlt)]
    simp [Bool.or_eq_true, decide_eq_true_iff]

/-- C4 witness: Wednesday 10:00 lies in the parsed "Mo-Fr 09:00-17:00"
span, through the in-range branch of the semantics. -/
theorem c4_witness : eval_parsed "Mo" "Fr" 540 1020 ⟨2, 10, 0⟩ = true :=
  (c4_day_and_hour_semantics.2.2.1 "Mo" "Fr" 540 1020 ⟨2, 10, 0⟩ (by decide)
    (by decide)).mpr (by decide)

/-- C9: the time fields are not range-validated — "Mo-Su 00:00-24:00"
parses to minutes 0 and 1440 by pure minute arithmetic (1440 is not a
valid clock time), and since every real timestamp has minute-of-day at
most 1439, the evaluator answers open (True), not unknown, at every
timestamp. -/
theorem c9_no_clock_validation :
    (∀ now : Now, now.hour < 24 → now.minute < 60 →
      is_open_now_basic (Cell.str "Mo-Su 00:00-24:00") now = some true) ∧
    regexSearch (pyStrip "Mo-Su 00:00-24:00".data) =
      some ("Mo", "Su", 0, 1440) := by
  constructor
  · intro now hh hm
    have hne : ¬pyStrip "Mo-Su 00:00-24:00".data = [] := by decide
    have hre : regexSearch (pyStrip "Mo-Su 00:00-24:00".data) =
        some ("Mo", "Su", 0, 1440) := by decide
    simp only [is_open_now_basic]
    rw [if_neg hne, hre]
    have hd : valid_days "Mo" "Su" = DAYS := by decide
    have hwd : DAYS.getD now.weekday.val "" ∈ valid_days "Mo" "Su" := by
      have hlt : now.weekday.val < 7 := now.weekday.isLt
      set n := now.weekday.val with hn
      interval_cases n <;> decide
    simp only [eval_parsed]
    rw [if_pos hwd, if_pos (by norm_num : (0:Nat) ≤ 1440)]
    simp [Bool.and_eq_true, decide_eq_true_iff]
    omega
  · decide

/-- C9 witness: at Thursday 23:59 the out-of-range span still answers
open. -/
theorem c9_witness :
    is_open_now_basic (Cell.str "Mo-Su 00:00-24:00") ⟨3, 23, 59⟩ = some true :=
  c9_no_clock_validation.1 ⟨3, 23, 59⟩ (by norm_num) (by norm_num)

/-- Helper: numeric coercion is idempotent (its output is always a number
or missing, both fixed points). -/
theorem to_numeric_idem (c : Cell) : to_numeric (to_numeric c) = to_numeric c := by
  cases c with
  | none => rfl
  | num q => rfl
  | str s =>
      simp only [to_numeric]
      cases parseNumeric s <;> rfl

/-- Helper: the lat/lon coercion step is idempotent per row. -/
theorem coerce_latlon_idem (hl ho : Bool) (r : RawRow) :
    coerce_latlon hl ho (coerce_latlon hl ho r) = coerce_latlon hl ho r := by
  cases r
  cases hl <;> cases ho <;> simp [coerce_latlon, to_numeric_idem]

/-- Helper: lat/lon coercion and the opening-hours copy touch disjoint
fields, so they commute. -/
theorem coerce_copy_comm (hl ho : Bool) (r : RawRow) :
    coerce_latlon hl ho (copy_ohraw r) = copy_ohraw (coerce_latlon hl ho r) := by
  cases r
  rfl

/-- C7: the venue normalizer never drops or reorders rows (same row count,
and each row keeps its `name` payload at its position), and it is
idempotent: normalizing an already-normalized table changes nothing. -/
theorem c7_normalize_idempotent_no_drop :
    ∀ t : RawTable,
      (normalize_df t).rows.length = t.rows.length ∧
      (normalize_df t).rows.map RawRow.name = t.rows.map RawRow.name ∧
      normalize_df (normalize_df t) = normalize_df t := by
  intro t
  refine ⟨?_, ?_, ?_⟩
  · simp only [normalize_df]
    by_cases hb : (!t.hasOHRaw && t.hasOH) = true
    · rw [if_pos hb]
      simp
    · rw [if_neg hb]
      simp
  · simp only [normalize_df]
    by_cases hb : (!t.hasOHRaw && t.hasOH) = true
    · rw [if_pos hb]
      simp only [List.map_map]
      apply List.map_congr_left
      intro r _
      cases r
      rfl
    · rw [if_neg hb]
      simp only [List.map_map]
      apply List.map_congr_left
      intro r _
      cases r
      cases t.hasLat <;> cases t.hasLon <;> rfl
  · simp only [normalize_df]
    by_cases hb : (!t.hasOHRaw && t.hasOH) = true
    · rw [if_pos hb]
      have hb2 : (!true && t.hasOH) = false := by simp
      simp only [hb2, Bool.false_eq_true, if_false, if_neg]
      congr 1
      simp only [List.map_map]
      apply List.map_congr_left
      intro r _
      simp only [Function.comp]
      rw [coerce_copy_comm, coerce_latlon_idem]
    · rw [if_neg hb]
      simp only [if_neg hb]
      congr 1
      simp only [List.map_map]
      apply List.map_congr_left
      intro r _
      simp only [Function.comp]
      rw [coerce_latlon_idem]

/-- Properties of `select_candidates` that hold for every sort satisfying
the pandas contract (any sort kind): the output has at most `2*k` rows,
contains only rows with a present `distance_m`, is ascending in
`distance_m`, and is a permutation of all valid rows whenever at most
`2*k` of them exist.  The order of rows with equal distance is left open,
as the source's default `quicksort` kind does not fix it. -/
theorem select_candidates_of_pandasSortOk
    (sortFn : List Venue → List Venue) (hok : pandasSortOk sortFn)
    (rows : List Venue) (k : Nat) :
    (select_candidates sortFn rows k).length ≤ 2 * k ∧
    (∀ v ∈ select_candidates sortFn rows k, v.distance_m.isSome = true) ∧
    List.Pairwise
      (fun u v => ∀ a b : ℚ,
        u.distance_m = some a → v.distance_m = some b → a ≤ b)
      (select_candidates sortFn rows k) ∧
    ((rows.filter validDist).length ≤ 2 * k →
      List.Perm (select_candidates sortFn rows k) (rows.filter validDist)) := by
  obtain ⟨hsort, hperm⟩ := hok (rows.filter validDist)
  refine ⟨?_, ?_, ?_, ?_⟩
  · simp only [select_candidates]
    simp
  · intro v hv
    have h1 : v ∈ sortFn (rows.filter validDist) := List.mem_of_mem_take hv
    have h2 : v ∈ rows.filter validDist := hperm.mem_iff.mp h1
    exact (List.mem_filter.mp h2).2
  · have hp : List.Pairwise distLE (select_candidates sortFn rows k) :=
      List.Pairwise.sublist (List.take_sublist _ _) hsort
    refine hp.imp ?_
    intro u v h a b ha hb
    have hu : distKey u = a := by simp [distKey, ha]
    have hv : distKey v = b := by simp [distKey, hb]
    rw [← hu, ← hv]
    exact h
  · intro hlen
    have hl : (sortFn (rows.filter validDist)).length ≤ 2 * k := by
      rw [hperm.length_eq]
      exact hlen
    simp only [select_candidates]
    rw [List.take_of_length_le hl]
    exact hperm

/-- The stable instance satisfies the pandas sort contract, so the
generic lemma is not vacuous. -/
theorem sortByDist_ok : pandasSortOk sortByDist :=
  fun l => ⟨List.sorted_insertionSort distLE l, List.perm_insertionSort distLE l⟩

/-- C6: the ranker's output is sorted by final score descending, and
among rows with equal score a row with smaller `distance_m` never appears
after one with larger `distance_m`. -/
theorem c6_rank_bars_sorted :
    ∀ (rows : List Venue) (toggles : List (String × Bool)),
      List.Pairwise
        (fun a b : Venue × ℚ =>
          b.2 ≤ a.2 ∧
            (a.2 = b.2 → ∀ da db : ℚ,
              a.1.distance_m = some da → b.1.distance_m = some db → da ≤ db))
        (rank_bars rows toggles) := by
  intro rows tg
  have hs : List.Sorted rankLE
      (List.insertionSort rankLE (compute_scores rows tg)) :=
    List.sorted_insertionSort rankLE (compute_scores rows tg)
  refine hs.imp ?_
  intro a b h
  rcases h with h | ⟨he, hd⟩
  · refine ⟨le_of_lt h, fun heq => ?_⟩
    exact absurd (heq ▸ h) (lt_irrefl _)
  · refine ⟨le_of_eq he.symm, fun _ da db hda hdb => ?_⟩
    rw [hda, hdb] at hd
    exact hd

/-- C6 witness: the sortedness property instantiated on a concrete
two-row pool with the empty toggle set. -/
theorem c6_witness :
    List.Pairwise
      (fun a b : Venue × ℚ =>
        b.2 ≤ a.2 ∧
          (a.2 = b.2 → ∀ da db : ℚ,
            a.1.distance_m = some da → b.1.distance_m = some db → da ≤ db))
      (rank_bars
        [⟨some 5, Cell.none, Cell.none, Cell.none⟩,
          ⟨some 2, Cell.str "yes", Cell.none, Cell.none⟩] []) :=
  c6_rank_bars_sorted
    [⟨some 5, Cell.none, Cell.none, Cell.none⟩,
      ⟨some 2, Cell.str "yes", Cell.none, Cell.none⟩] []
